import Mathlib

/-!
Shallow embedding of the phantom-native core: the fallback layout engine
(`src/core/renderer/fallback-layout.ts`), the simple render node
(`src/core/renderer/simple-render-node.ts`), the hook-state engine and the two
virtual-element tree builders (`src/core/runtime/...virtual-modules`), the
worker id allocator and event dispatch (`src/core/runtime/worker.ts`,
`worker-bridge`), and hit testing (`src/core/renderer/hit-testing.ts`).
JavaScript numbers are modelled as rationals; `undefined`/absent values as
`Option`; JS truthiness of numeric options is modelled explicitly.
-/

namespace Phantom

/-- Model of a `number | string` dimension value (`LayoutStyle.width` etc.).
`pct q` is a string ending in `%` whose `parseFloat` is `q`; `invalidStr` is
any other string, which `parseSize` maps to `null`. -/
inductive SizeVal where
  | num (q : ℚ)
  | pct (q : ℚ)
  | invalidStr
deriving DecidableEq

inductive FlexDirection where
  | row
  | column
deriving DecidableEq

inductive JustifyContent where
  | flexStart
  | flexEnd
  | center
  | spaceBetween
  | spaceAround
deriving DecidableEq

inductive AlignItems where
  | alignFlexStart
  | alignFlexEnd
  | alignCenter
  | stretch
deriving DecidableEq

/-- `LayoutStyle` from fallback-layout.ts (all fields optional). -/
structure LayoutStyle where
  width : Option SizeVal := none
  height : Option SizeVal := none
  minWidth : Option ℚ := none
  minHeight : Option ℚ := none
  maxWidth : Option ℚ := none
  maxHeight : Option ℚ := none
  padding : Option ℚ := none
  paddingTop : Option ℚ := none
  paddingBottom : Option ℚ := none
  paddingLeft : Option ℚ := none
  paddingRight : Option ℚ := none
  margin : Option ℚ := none
  marginTop : Option ℚ := none
  marginBottom : Option ℚ := none
  marginLeft : Option ℚ := none
  marginRight : Option ℚ := none
  flexDirection : Option FlexDirection := none
  justifyContent : Option JustifyContent := none
  alignItems : Option AlignItems := none
  flex : Option ℚ := none

/-- `LayoutResult` from fallback-layout.ts. -/
structure LayoutResult where
  left : ℚ
  top : ℚ
  width : ℚ
  height : ℚ
deriving DecidableEq

/-- `LayoutNode` from fallback-layout.ts: style, children and the mutable
`layout?` slot written by `calculateLayout`. -/
inductive LayoutNode where
  | mk (style : LayoutStyle) (children : List LayoutNode)
      (layout : Option LayoutResult)

def LayoutNode.style : LayoutNode → LayoutStyle
  | .mk s _ _ => s

def LayoutNode.children : LayoutNode → List LayoutNode
  | .mk _ c _ => c

def LayoutNode.layout : LayoutNode → Option LayoutResult
  | .mk _ _ l => l

/-- `parseSize` from fallback-layout.ts: numbers pass through, `%` strings
resolve against the container, other strings (and `undefined`) give `null`. -/
def parseSize : Option SizeVal → ℚ → Option ℚ
  | none, _ => none
  | some (.num n), _ => some n
  | some (.pct p), containerSize => some (p / 100 * containerSize)
  | some .invalidStr, _ => none

/-- JS truthiness of an optional number: `undefined` and `0` are falsy. -/
def qTruthy : Option ℚ → Bool
  | none => false
  | some q => decide (q ≠ 0)

/-- JS condition `style.flex && style.flex > 0` in `calculateLayout`. -/
def flexPositive (flex : Option ℚ) : Bool :=
  match flex with
  | none => false
  | some f => qTruthy (some f) && decide (f > 0)

/-- Min/max clamp of `calculateLayout` (lines 74–77 of fallback-layout.ts),
for one axis: `if (min) v = max(v, min); if (max) v = min(v, max)` — each
bound applies only when truthy (present and nonzero). -/
def applyMinMax (v : ℚ) (mn mx : Option ℚ) : ℚ :=
  let v1 := if qTruthy mn then max v (mn.getD 0) else v
  if qTruthy mx then min v1 (mx.getD 0) else v1

/-- Pre-clamp width of `calculateLayout` (lines 64–71): flex-grow fills the
container, else literal / percentage / default-to-container. -/
def widthBase (style : LayoutStyle) (containerWidth : ℚ) : ℚ :=
  if flexPositive style.flex then containerWidth
  else (parseSize style.width containerWidth).getD containerWidth

/-- Pre-clamp height (lines 64–71): the same conditional for the other axis. -/
def heightBase (style : LayoutStyle) (containerHeight : ℚ) : ℚ :=
  if flexPositive style.flex then containerHeight
  else (parseSize style.height containerHeight).getD containerHeight

/-- Own-size resolution step of `calculateLayout` (lines 60–77): the
conditional bases followed by the truthiness-guarded min/max clamps. -/
def resolveOwnSize (style : LayoutStyle) (containerWidth containerHeight : ℚ) :
    ℚ × ℚ :=
  (applyMinMax (widthBase style containerWidth) style.minWidth style.maxWidth,
   applyMinMax (heightBase style containerHeight) style.minHeight
     style.maxHeight)

/-- JS comparison `flexDirection === 'row'`. -/
def dirIsRow : FlexDirection → Bool
  | .row => true
  | .column => false

/-- JS comparison `alignItems === 'stretch'`. -/
def alignIsStretch : AlignItems → Bool
  | .stretch => true
  | _ => false

/-- Main-axis fixed size of a child (`layoutChildren` lines 133–144):
`isRow ? parseSize(width, containerWidth) : parseSize(height, containerHeight)`. -/
def childMainFixed (isRow : Bool) (containerWidth containerHeight : ℚ)
    (child : LayoutNode) : Option ℚ :=
  if isRow then parseSize child.style.width containerWidth
  else parseSize child.style.height containerHeight

/-- Accumulation of `totalFixedSize` in `layoutChildren`. -/
def totalFixedSize (children : List LayoutNode) (isRow : Bool)
    (containerWidth containerHeight : ℚ) : ℚ :=
  children.foldl
    (fun acc c =>
      match childMainFixed isRow containerWidth containerHeight c with
      | some s => acc + s
      | none => acc) 0

/-- Accumulation of `totalFlex` in `layoutChildren`: only children without a
fixed main size and with truthy `flex` contribute. -/
def totalFlexWeight (children : List LayoutNode) (isRow : Bool)
    (containerWidth containerHeight : ℚ) : ℚ :=
  children.foldl
    (fun acc c =>
      match childMainFixed isRow containerWidth containerHeight c with
      | some _ => acc
      | none => if qTruthy c.style.flex then acc + c.style.flex.getD 0 else acc) 0

/-- `flexSpace = Math.max(0, mainSize - totalFixedSize)` (line 146). -/
def flexSpace (mainSize totalFixed : ℚ) : ℚ :=
  max 0 (mainSize - totalFixed)

/-- `flexUnit = totalFlex > 0 ? flexSpace / totalFlex : 0` (line 147). -/
def flexUnit (mainSize totalFixed totalFlex : ℚ) : ℚ :=
  if 0 < totalFlex then flexSpace mainSize totalFixed / totalFlex else 0

/-- Spacing and starting offset from the justification mode (lines 153–166).
Returns `(spacing, startOffset)`. The leftover expression
`mainSize - totalFixedSize - flexUnit * totalFlex` is taken verbatim from the
source: it is not clamped at zero. -/
def justifyParams (justify : JustifyContent) (count : Nat)
    (mainSize totalFixed fUnit totalFlex : ℚ) : ℚ × ℚ :=
  let leftover := mainSize - totalFixed - fUnit * totalFlex
  match justify with
  | .center => (0, leftover / 2)
  | .flexEnd => (0, leftover)
  | .spaceBetween =>
      if 1 < count then (leftover / ((count : ℚ) - 1), 0) else (0, 0)
  | .spaceAround => (leftover / (count : ℚ), leftover / (count : ℚ) / 2)
  | .flexStart => (0, 0)

/-- Position overwrite after the recursive child layout (`layoutChildren`
lines 213–217): `child.layout.left/top` are replaced by the computed main and
cross positions; the size just computed is kept. -/
def placeChild (laid : LayoutNode) (mainPos crossPos : ℚ) (isRow : Bool) :
    LayoutNode :=
  match laid.layout with
  | some l =>
      .mk laid.style laid.children
        (some ⟨if isRow then mainPos else crossPos,
               if isRow then crossPos else mainPos, l.width, l.height⟩)
  | none => laid

mutual

/-- `calculateLayout` from fallback-layout.ts: resolves the node's own box,
stores it, and (when children exist) runs the child pass on the padded content
box. Mutation of `node.layout` is modelled by returning the updated tree. -/
def calculateLayout : LayoutNode → ℚ → ℚ → LayoutNode
  | .mk style children _, containerWidth, containerHeight =>
    let paddingTop := (style.paddingTop <|> style.padding).getD 0
    let paddingBottom := (style.paddingBottom <|> style.padding).getD 0
    let paddingLeft := (style.paddingLeft <|> style.padding).getD 0
    let paddingRight := (style.paddingRight <|> style.padding).getD 0
    let wh := resolveOwnSize style containerWidth containerHeight
    let width := wh.1
    let height := wh.2
    let box : LayoutResult := ⟨0, 0, width, height⟩
    let newChildren :=
      if children.isEmpty then children
      else
        let dir := style.flexDirection.getD .column
        let justify := style.justifyContent.getD .flexStart
        let align := style.alignItems.getD .alignFlexStart
        let contentWidth := width - paddingLeft - paddingRight
        let contentHeight := height - paddingTop - paddingBottom
        let isRow := dirIsRow dir
        let mainSize := if isRow then contentWidth else contentHeight
        let crossSize := if isRow then contentHeight else contentWidth
        let tfs := totalFixedSize children isRow contentWidth contentHeight
        let tfl := totalFlexWeight children isRow contentWidth contentHeight
        let fUnit := flexUnit mainSize tfs tfl
        let sp := justifyParams justify children.length mainSize tfs fUnit tfl
        let startPos := (if isRow then paddingLeft else paddingTop) + sp.2
        layoutChildrenGo children contentWidth contentHeight paddingLeft
          paddingTop isRow crossSize align fUnit sp.1 startPos
    .mk style newChildren (some box)

/-- Per-child loop of `layoutChildren` (lines 170–220): resolve main and cross
size, lay the child out in its box, overwrite its position, advance the main
cursor by `childMainSize + spacing`. -/
def layoutChildrenGo : List LayoutNode → ℚ → ℚ → ℚ → ℚ → Bool → ℚ →
    AlignItems → ℚ → ℚ → ℚ → List LayoutNode
  | [], _, _, _, _, _, _, _, _, _, _ => []
  | child :: rest, containerWidth, containerHeight, offsetX, offsetY, isRow,
      crossSize, align, fUnit, spacing, currentPos =>
    let cs := child.style
    let childMainSize :=
      match childMainFixed isRow containerWidth containerHeight child with
      | some s => s
      | none => if qTruthy cs.flex then fUnit * cs.flex.getD 0 else 100
    let childCrossSize :=
      match (if isRow then parseSize cs.height containerHeight
             else parseSize cs.width containerWidth) with
      | some s => s
      | none => if alignIsStretch align then crossSize else 100
    let crossPos := (if isRow then offsetY else offsetX) +
      (match align with
       | .alignCenter => (crossSize - childCrossSize) / 2
       | .alignFlexEnd => crossSize - childCrossSize
       | _ => 0)
    let childWidth := if isRow then childMainSize else childCrossSize
    let childHeight := if isRow then childCrossSize else childMainSize
    let laid := calculateLayout child childWidth childHeight
    placeChild laid currentPos crossPos isRow ::
      layoutChildrenGo rest containerWidth containerHeight offsetX
      offsetY isRow crossSize align fUnit spacing
      (currentPos + childMainSize + spacing)

end

/-- `layoutChildren` from fallback-layout.ts (lines 115–221): the prelude
computing sizes, flex distribution and justification, followed by the child
loop.  `calculateLayout` above inlines exactly this computation. -/
def layoutChildren (children : List LayoutNode)
    (containerWidth containerHeight offsetX offsetY : ℚ) (dir : FlexDirection)
    (justify : JustifyContent) (align : AlignItems) : List LayoutNode :=
  let isRow := dirIsRow dir
  let mainSize := if isRow then containerWidth else containerHeight
  let crossSize := if isRow then containerHeight else containerWidth
  let tfs := totalFixedSize children isRow containerWidth containerHeight
  let tfl := totalFlexWeight children isRow containerWidth containerHeight
  let fUnit := flexUnit mainSize tfs tfl
  let sp := justifyParams justify children.length mainSize tfs fUnit tfl
  let startPos := (if isRow then offsetX else offsetY) + sp.2
  layoutChildrenGo children containerWidth containerHeight offsetX offsetY
    isRow crossSize align fUnit sp.1 startPos

/-- Left coordinate of a laid-out node's box (`0` when no box was written). -/
def layoutLeft (n : LayoutNode) : ℚ :=
  (n.layout.getD ⟨0, 0, 0, 0⟩).left

/-- Top coordinate of a laid-out node's box. -/
def layoutTop (n : LayoutNode) : ℚ :=
  (n.layout.getD ⟨0, 0, 0, 0⟩).top

/-- Width of a laid-out node's box. -/
def layoutWidth (n : LayoutNode) : ℚ :=
  (n.layout.getD ⟨0, 0, 0, 0⟩).width

/-- Height of a laid-out node's box. -/
def layoutHeight (n : LayoutNode) : ℚ :=
  (n.layout.getD ⟨0, 0, 0, 0⟩).height

/-- Main-axis coordinate of a laid-out node's box: `left` in a row container,
`top` in a column container. -/
def layoutMainPos (isRow : Bool) (n : LayoutNode) : ℚ :=
  if isRow then layoutLeft n else layoutTop n

mutual

/-- Forgets every `layout` slot in a tree, keeping styles and structure:
two trees with equal erasures differ at most in their layout boxes. -/
def eraseLayout : LayoutNode → LayoutNode
  | .mk style children _ => .mk style (eraseLayoutList children) none

def eraseLayoutList : List LayoutNode → List LayoutNode
  | [] => []
  | c :: rest => eraseLayout c :: eraseLayoutList rest

end

/-- Paint and text properties carried alongside layout properties in node
styles (`ViewStyle & TextStyle` in the source). -/
structure PaintStyle where
  backgroundColor : Option String := none
  borderRadius : Option ℚ := none
  borderColor : Option String := none
  borderWidth : Option ℚ := none
  shadowColor : Option String := none
  shadowOffsetW : Option ℚ := none
  shadowOffsetH : Option ℚ := none
  shadowOpacity : Option ℚ := none
  shadowRadius : Option ℚ := none
  color : Option String := none
  fontSize : Option ℚ := none
  fontWeight : Option String := none
  textAlign : Option String := none

/-- Combined `LayoutStyle & ViewStyle & TextStyle` node style. -/
structure FullStyle extends LayoutStyle, PaintStyle

/-- JS object spread `{ ...a, ...b }` on style objects: a key present in `b`
overrides the one in `a`. -/
def styleMerge (a b : FullStyle) : FullStyle where
  width := b.width <|> a.width
  height := b.height <|> a.height
  minWidth := b.minWidth <|> a.minWidth
  minHeight := b.minHeight <|> a.minHeight
  maxWidth := b.maxWidth <|> a.maxWidth
  maxHeight := b.maxHeight <|> a.maxHeight
  padding := b.padding <|> a.padding
  paddingTop := b.paddingTop <|> a.paddingTop
  paddingBottom := b.paddingBottom <|> a.paddingBottom
  paddingLeft := b.paddingLeft <|> a.paddingLeft
  paddingRight := b.paddingRight <|> a.paddingRight
  margin := b.margin <|> a.margin
  marginTop := b.marginTop <|> a.marginTop
  marginBottom := b.marginBottom <|> a.marginBottom
  marginLeft := b.marginLeft <|> a.marginLeft
  marginRight := b.marginRight <|> a.marginRight
  flexDirection := b.flexDirection <|> a.flexDirection
  justifyContent := b.justifyContent <|> a.justifyContent
  alignItems := b.alignItems <|> a.alignItems
  flex := b.flex <|> a.flex
  backgroundColor := b.backgroundColor <|> a.backgroundColor
  borderRadius := b.borderRadius <|> a.borderRadius
  borderColor := b.borderColor <|> a.borderColor
  borderWidth := b.borderWidth <|> a.borderWidth
  shadowColor := b.shadowColor <|> a.shadowColor
  shadowOffsetW := b.shadowOffsetW <|> a.shadowOffsetW
  shadowOffsetH := b.shadowOffsetH <|> a.shadowOffsetH
  shadowOpacity := b.shadowOpacity <|> a.shadowOpacity
  shadowRadius := b.shadowRadius <|> a.shadowRadius
  color := b.color <|> a.color
  fontSize := b.fontSize <|> a.fontSize
  fontWeight := b.fontWeight <|> a.fontWeight
  textAlign := b.textAlign <|> a.textAlign

/-- Value of a `style` prop: absent/falsy, a single object, or a (possibly
nested) array of style props. -/
inductive StyleProp where
  | noStyle
  | styleObj (s : FullStyle)
  | styleArr (ss : List StyleProp)

mutual

/-- `flattenStyle` from virtual-modules: falsy styles give `{}`, arrays are
reduced left-to-right with spread, single objects pass through. -/
def flattenStyle : StyleProp → FullStyle
  | .noStyle => {}
  | .styleObj s => s
  | .styleArr ss => flattenStyleFold ss {}

def flattenStyleFold : List StyleProp → FullStyle → FullStyle
  | [], acc => acc
  | s :: rest, acc => flattenStyleFold rest (styleMerge acc (flattenStyle s))

end

/-- Node kinds of the `RenderNode` tree (`'view' | 'text' | 'image'`). -/
inductive NodeKind where
  | view
  | text
  | image
deriving DecidableEq

/-- `RenderNode` from render-node.ts (main-thread variant; the Yoga handle and
paint methods are irrelevant to the builder claims and omitted).  The stored
`onPress` callback is modelled by the flag of its presence. -/
inductive RenderNode where
  | mk (type : NodeKind) (style : FullStyle) (text : Option String)
      (children : List RenderNode) (onPress : Bool)

def RenderNode.type : RenderNode → NodeKind
  | .mk t _ _ _ _ => t

def RenderNode.style : RenderNode → FullStyle
  | .mk _ s _ _ _ => s

def RenderNode.text : RenderNode → Option String
  | .mk _ _ tx _ _ => tx

def RenderNode.children : RenderNode → List RenderNode
  | .mk _ _ _ cs _ => cs

def RenderNode.onPress : RenderNode → Bool
  | .mk _ _ _ _ p => p

/-- `generateNodeId` from worker-bridge: `node_${++nodeIdCounter}`.  Takes and
returns the module-level counter. -/
def generateNodeId (nodeIdCounter : Nat) : String × Nat :=
  ("node_" ++ Nat.repr (nodeIdCounter + 1), nodeIdCounter + 1)

/-- `resetNodeIdCounter` from worker-bridge: sets the counter to zero. -/
def resetNodeIdCounter (_ : Nat) : Nat := 0

/-- `SimpleRenderNode` from simple-render-node.ts. -/
inductive SimpleRenderNode where
  | mk (id : String) (type : NodeKind) (style : FullStyle)
      (text : Option String) (children : List SimpleRenderNode)
      (layout : Option LayoutResult) (onPress : Bool)

def SimpleRenderNode.id : SimpleRenderNode → String
  | .mk i _ _ _ _ _ _ => i

def SimpleRenderNode.type : SimpleRenderNode → NodeKind
  | .mk _ t _ _ _ _ _ => t

def SimpleRenderNode.style : SimpleRenderNode → FullStyle
  | .mk _ _ s _ _ _ _ => s

def SimpleRenderNode.text : SimpleRenderNode → Option String
  | .mk _ _ _ tx _ _ _ => tx

def SimpleRenderNode.children : SimpleRenderNode → List SimpleRenderNode
  | .mk _ _ _ _ cs _ _ => cs

def SimpleRenderNode.layout : SimpleRenderNode → Option LayoutResult
  | .mk _ _ _ _ _ ly _ => ly

def SimpleRenderNode.onPress : SimpleRenderNode → Bool
  | .mk _ _ _ _ _ _ p => p

/-- The `SimpleRenderNode` constructor: allocates the next node id from the
module counter and stores the given fields with `layout := undefined`. -/
def mkSimpleRenderNode (nodeIdCounter : Nat) (type : NodeKind)
    (style : FullStyle) (text : Option String)
    (children : List SimpleRenderNode) (onPress : Bool) :
    SimpleRenderNode × Nat :=
  let idc := generateNodeId nodeIdCounter
  (.mk idc.1 type style text children none onPress, idc.2)

mutual

/-- `SimpleRenderNode.toLayoutNode`: projects the combined style to its layout
part and mirrors the child structure. -/
def toLayoutNode : SimpleRenderNode → LayoutNode
  | .mk _ _ st _ cs ly _ => .mk st.toLayoutStyle (toLayoutNodeList cs) ly

def toLayoutNodeList : List SimpleRenderNode → List LayoutNode
  | [] => []
  | c :: rest => toLayoutNode c :: toLayoutNodeList rest

end

mutual

/-- `SimpleRenderNode.updateLayoutsFromNode`: copies computed layout slots back
from the layout tree by position; a child with no counterpart is untouched. -/
def updateLayoutsFromNode : SimpleRenderNode → LayoutNode → SimpleRenderNode
  | .mk i t st tx cs _ op, ln =>
      .mk i t st tx (updateLayoutsList cs ln.children) ln.layout op

def updateLayoutsList : List SimpleRenderNode → List LayoutNode →
    List SimpleRenderNode
  | [], _ => []
  | c :: cs, [] => c :: cs
  | c :: cs, l :: ls => updateLayoutsFromNode c l :: updateLayoutsList cs ls

end

/-- JS `x || d` on an optional number: `undefined` and `0` fall back to `d`. -/
def jsOrDefault (x : Option ℚ) (d : ℚ) : ℚ :=
  match x with
  | none => d
  | some v => if v = 0 then d else v

/-- `SimpleRenderNode.calculateLayout(width?, height?)`: converts to a layout
tree, runs the fallback layout with `width || 393` / `height || 852`, and
copies the computed boxes back into the render tree. -/
def srnCalculateLayout (srn : SimpleRenderNode) (width height : Option ℚ) :
    SimpleRenderNode :=
  let layoutNode := toLayoutNode srn
  let done := calculateLayout layoutNode (jsOrDefault width 393)
    (jsOrDefault height 852)
  updateLayoutsFromNode srn done

mutual

/-- Forgets every `layout` slot of a `SimpleRenderNode` tree, keeping ids,
kinds, styles, text, press flags and child order. -/
def stripLayout : SimpleRenderNode → SimpleRenderNode
  | .mk i t st tx cs _ op => .mk i t st tx (stripLayoutList cs) none op

def stripLayoutList : List SimpleRenderNode → List SimpleRenderNode
  | [] => []
  | c :: rest => stripLayout c :: stripLayoutList rest

end

/-- `SerializableNode` from worker-bridge: the boundary-safe tree with id,
kind, computed box, paint style, optional text, press flag and children. -/
inductive SerializableNode where
  | mk (id : String) (type : NodeKind) (layout : LayoutResult)
      (style : PaintStyle) (text : Option String) (hasOnPress : Bool)
      (children : List SerializableNode)

def SerializableNode.id : SerializableNode → String
  | .mk i _ _ _ _ _ _ => i

def SerializableNode.layout : SerializableNode → LayoutResult
  | .mk _ _ l _ _ _ _ => l

def SerializableNode.hasOnPress : SerializableNode → Bool
  | .mk _ _ _ _ _ p _ => p

def SerializableNode.children : SerializableNode → List SerializableNode
  | .mk _ _ _ _ _ _ cs => cs

/-- Point in canvas coordinates (hit-testing.ts). -/
structure Point where
  x : ℚ
  y : ℚ

mutual

/-- `hitTest` from hit-testing.ts (SerializableNode variant): accumulate the
parent offset, fail outside the box, test children last-to-first, and claim
the hit only when flagged. -/
def hitTest : SerializableNode → Point → ℚ → ℚ → Option String
  | .mk id _ layout _ _ press children, p, offsetX, offsetY =>
    let x := offsetX + layout.left
    let y := offsetY + layout.top
    if p.x ≥ x ∧ p.x ≤ x + layout.width ∧ p.y ≥ y ∧ p.y ≤ y + layout.height
    then
      match hitTestKids children p x y with
      | some hitId => some hitId
      | none => if press then some id else none
    else none

/-- The `for (let i = children.length - 1; i >= 0; i--)` loop of `hitTest`:
the last (topmost) child is consulted first. -/
def hitTestKids : List SerializableNode → Point → ℚ → ℚ → Option String
  | [], _, _, _ => none
  | child :: rest, p, x, y =>
    match hitTestKids rest p x y with
    | some r => some r
    | none => hitTest child p x y

end

mutual

/-- Specification-side linearization of the hit-test search: the nodes whose
(offset-accumulated) boxes contain the point, listed in the order the search
consults them — children before their parent, later siblings first; subtrees
of nodes not containing the point are pruned. -/
def hitOrder : SerializableNode → Point → ℚ → ℚ → List SerializableNode
  | .mk id ty layout st tx press children, p, offsetX, offsetY =>
    let x := offsetX + layout.left
    let y := offsetY + layout.top
    if p.x ≥ x ∧ p.x ≤ x + layout.width ∧ p.y ≥ y ∧ p.y ≤ y + layout.height
    then hitOrderKids children p x y ++ [.mk id ty layout st tx press children]
    else []

def hitOrderKids : List SerializableNode → Point → ℚ → ℚ →
    List SerializableNode
  | [], _, _, _ => []
  | c :: rest, p, x, y => hitOrderKids rest p x y ++ hitOrder c p x y

end

/-- Log levels of the worker→main `LOG` message. -/
inductive LogLevel where
  | info
  | error
  | warn
deriving DecidableEq

/-- `WorkerToMainMessage` from worker-bridge. -/
inductive WorkerToMainMessage where
  | workerReady
  | renderTree (tree : SerializableNode)
  | executionError (error : String)
  | log (level : LogLevel) (message : String)

/-- Recognizer for the `EXECUTION_ERROR` protocol message. -/
def isExecutionErrorMsg : WorkerToMainMessage → Bool
  | .executionError _ => true
  | _ => false

/-- `dispatchEvent` from worker.ts, as the list of messages it posts.  The
stored handler is modelled by the outcome of invoking it (normal return or
thrown message); `currentTree` tells whether `currentRenderTree` is set. -/
def dispatchEvent (eventHandlers : String → Option (Except String Unit))
    (currentTree : Bool) (nodeId eventType : String) :
    List WorkerToMainMessage :=
  let entry := WorkerToMainMessage.log .info
    ("[Worker] Dispatching " ++ eventType ++ " to node " ++ nodeId)
  match eventHandlers nodeId with
  | none =>
      [entry, .log .warn ("[Worker] No handler found for node " ++ nodeId)]
  | some (.ok _) =>
      entry :: (if currentTree
        then [.log .info "[Worker] Re-executing after state change..."]
        else [])
  | some (.error e) =>
      [entry, .log .error ("[Worker] Event dispatch error: " ++ e)]

/-- Identifiers handed out by `count` successive `generateNodeId` calls
starting from counter value `c`. -/
def idsFrom (c : Nat) : Nat → List String
  | 0 => []
  | count + 1 =>
    let idc := generateNodeId c
    idc.1 :: idsFrom idc.2 count

/-- Node-identifier behaviour of one `executeCode` pass that allocates `count`
nodes: `executeCode` invokes `resetNodeIdCounter()` before building (worker.ts
line 71), so allocation starts from a reset counter.  Returns the ids and the
counter left for the next pass. -/
def executePassIds (counterBefore : Nat) (count : Nat) : List String × Nat :=
  let c0 := resetNodeIdCounter counterBefore
  (idsFrom c0 count, c0 + count)

/-- Decimal digit value of a digit character, `10` on non-digits. -/
def digitVal (ch : Char) : Nat :=
  if ch = '0' then 0 else if ch = '1' then 1 else if ch = '2' then 2 else
  if ch = '3' then 3 else if ch = '4' then 4 else if ch = '5' then 5 else
  if ch = '6' then 6 else if ch = '7' then 7 else if ch = '8' then 8 else
  if ch = '9' then 9 else 10

/-- Reads a decimal digit string back into a number. -/
def undecimal (l : List Char) : Nat :=
  l.foldl (fun acc ch => acc * 10 + digitVal ch) 0

/-- Decimal digits of `n`, most significant first (fuel-free restatement of
core `Nat.toDigitsCore` at base 10). -/
def decimalsOf (n : Nat) : List Char :=
  if n < 10 then [Nat.digitChar n]
  else decimalsOf (n / 10) ++ [Nat.digitChar (n % 10)]
decreasing_by exact Nat.div_lt_self (by omega) (by omega)

/-- State of the hook engine in virtual-modules: the pass-local ordinal
`stateIndex` and the persistent `stateValues` store (`undefined` as `none`). -/
structure EngineState (V : Type) where
  stateIndex : Nat
  stateValues : Nat → Option V

/-- `resetState` from virtual-modules: the ordinal returns to zero, stored
values persist. -/
def resetState {V : Type} (s : EngineState V) : EngineState V :=
  { s with stateIndex := 0 }

/-- Argument accepted by a state setter: a literal value or a function of the
previous stored value (which is `undefined` when nothing is stored). -/
inductive SetterArg (V : Type) where
  | value (v : V)
  | updater (f : Option V → V)

/-- `React.useState` from virtual-modules: reads the current ordinal, stores
`initialValue` there only when nothing is stored, returns the stored value
and the captured ordinal (standing for the returned setter closure), and
advances the ordinal. -/
def useState {V : Type} (initialValue : V) (s : EngineState V) :
    V × Nat × EngineState V :=
  let currentIndex := s.stateIndex
  let store :=
    match s.stateValues currentIndex with
    | none => fun i => if i = currentIndex then some initialValue
        else s.stateValues i
    | some _ => s.stateValues
  let value := (store currentIndex).getD initialValue
  (value, currentIndex, ⟨currentIndex + 1, store⟩)

/-- `setValue` from virtual-modules, applied to the state it closes over:
writes the literal value, or the updater applied to the stored value, at the
captured ordinal.  (The source then invokes the registered update callback to
schedule a re-execution; scheduling is outside this model.) -/
def applySetter {V : Type} (currentIndex : Nat) (newValue : SetterArg V)
    (s : EngineState V) : EngineState V :=
  { s with stateValues := fun i =>
      if i = currentIndex then
        some (match newValue with
          | .value v => v
          | .updater f => f (s.stateValues currentIndex))
      else s.stateValues i }

mutual

/-- `VirtualElement` from virtual-modules: a kind (component-name string or a
function component, defunctionalized to an index into a component
environment) and props. -/
inductive VirtualElement where
  | mk (type : VElemType) (props : VProps)

/-- The `string | Function` element kind. -/
inductive VElemType where
  | str (name : String)
  | fn (fid : Nat)

/-- Element props: style prop, presence of an `onPress` callback, and the
`children` prop. -/
inductive VProps where
  | mk (style : StyleProp) (onPress : Bool) (children : VKids)

/-- The `children` prop: absent, a single child, or an array of children. -/
inductive VKids where
  | noKids
  | oneKid (c : VChild)
  | manyKids (cs : List VChild)

/-- A child value: an element, a string, or a number. -/
inductive VChild where
  | elemChild (e : VirtualElement)
  | strChild (s : String)
  | numChild (n : Int)

end

def VirtualElement.type : VirtualElement → VElemType
  | .mk t _ => t

def VirtualElement.props : VirtualElement → VProps
  | .mk _ p => p

def VProps.style : VProps → StyleProp
  | .mk s _ _ => s

def VProps.onPress : VProps → Bool
  | .mk _ p _ => p

def VProps.children : VProps → VKids
  | .mk _ _ c => c

/-- JS truthiness of a child value (`if (children)` with a single child):
the empty string and the number `0` are falsy. -/
def kidTruthy : VChild → Bool
  | .strChild s => decide (s ≠ "")
  | .numChild n => decide (n ≠ 0)
  | .elemChild _ => true

/-- JS truthiness of the `children` prop (`if (children)`): absent is falsy,
arrays are truthy (even empty), a single child by its own truthiness. -/
def kidsTruthy : VKids → Bool
  | .noKids => false
  | .oneKid c => kidTruthy c
  | .manyKids _ => true

/-- `Array.isArray(children) ? children : [children]`. -/
def kidArray : VKids → List VChild
  | .noKids => []
  | .oneKid c => [c]
  | .manyKids cs => cs

/-- JS truthiness of `child.type` for an element child: an empty-string kind
is falsy, functions and non-empty strings are truthy. -/
def elemTypeTruthy : VirtualElement → Bool
  | .mk (.str name) _ => decide (name ≠ "")
  | .mk (.fn _) _ => true

/-- Text content collapse in the main-thread builder's `Text` branch:
string/number children stringify, anything else contributes `''`. -/
def textFromKids (kids : VKids) : String :=
  if kidsTruthy kids then
    String.join ((kidArray kids).map fun child =>
      match child with
      | .strChild s => s
      | .numChild n => toString n
      | .elemChild _ => "")
  else ""

/-- Values held by the state engine during component evaluation. -/
abbrev JsVal := Int

/-- Component environment resolving a defunctionalized function component to
its behaviour: given the element's props and the engine state, it returns the
rendered virtual element and the updated engine state. -/
abbrev CompEnv := Nat → VProps → EngineState JsVal →
  VirtualElement × EngineState JsVal

/-- `buildRenderTree` from virtual-modules (main-thread variant): function
components are invoked with their props after `resetState()` and their result
is built recursively; `View`/`TouchableOpacity` become `view` nodes with
element children built recursively (non-elements and falsy-kind elements are
skipped); `Text` becomes a `text` node collapsing string/number children; any
other kind yields `null`.  `fuel` bounds the recursion depth, which the
source does not bound. -/
def buildRenderTree (env : CompEnv) :
    Nat → VirtualElement → EngineState JsVal →
    Option RenderNode × EngineState JsVal
  | 0, _, s => (none, s)
  | fuel + 1, .mk ty props, s =>
    match ty with
    | .fn fid =>
        let s0 := resetState s
        let rs := env fid props s0
        buildRenderTree env fuel rs.1 rs.2
    | .str name =>
        if name = "View" ∨ name = "TouchableOpacity" then
          let built :=
            if kidsTruthy props.children then
              (kidArray props.children).foldl
                (fun (acc : List RenderNode × EngineState JsVal) child =>
                  match child with
                  | .elemChild e =>
                      if elemTypeTruthy e then
                        let r := buildRenderTree env fuel e acc.2
                        match r.1 with
                        | some node => (acc.1 ++ [node], r.2)
                        | none => (acc.1, r.2)
                      else acc
                  | _ => acc)
                ([], s)
            else ([], s)
          (some (.mk .view (flattenStyle props.style) none built.1
            props.onPress), built.2)
        else if name = "Text" then
          (some (.mk .text (flattenStyle props.style)
            (some (textFromKids props.children)) [] false), s)
        else
          (none, s)

mutual

/-- `buildRenderTree` from the worker variant of virtual-modules: children are
built first (string/number children are wrapped in fresh text
`SimpleRenderNode`s), the kind is coerced — `View`/`TouchableOpacity` to
`view`, `Text` to `text`, anything else (functions included) to `view` — and
a node is always constructed.  Threads the node-id counter. -/
def workerBuildRenderTree : VirtualElement → Nat →
    Option SimpleRenderNode × Nat
  | .mk ty (.mk style onPress kids), c =>
    let built :=
      match kids with
      | .noKids => ([], c)
      | .oneKid k => if kidTruthy k then workerBuildKid k ([], c) else ([], c)
      | .manyKids cs => workerBuildKidsList cs ([], c)
    let type :=
      match ty with
      | .str "View" => NodeKind.view
      | .str "TouchableOpacity" => NodeKind.view
      | .str "Text" => NodeKind.text
      | _ => NodeKind.view
    let textVal :=
      if type = NodeKind.text ∧ built.1.length = 1 then
        match built.1 with
        | [only] =>
            match only.text with
            | some t => if t = "" then none else some t
            | none => none
        | _ => none
      else none
    let children2 :=
      if type = NodeKind.text ∧ built.1.length = 1 then [] else built.1
    let made := mkSimpleRenderNode built.2 type (flattenStyle style) textVal
      children2 onPress
    (some made.1, made.2)

/-- One step of the worker builder's child loop: strings and numbers become
fresh text nodes, elements are built recursively and appended when non-null,
anything falsy is skipped. -/
def workerBuildKid : VChild → List SimpleRenderNode × Nat →
    List SimpleRenderNode × Nat
  | .strChild s, acc =>
      let made := mkSimpleRenderNode acc.2 .text {} (some s) [] false
      (acc.1 ++ [made.1], made.2)
  | .numChild n, acc =>
      let made := mkSimpleRenderNode acc.2 .text {} (some (toString n)) []
        false
      (acc.1 ++ [made.1], made.2)
  | .elemChild e, acc =>
      let r := workerBuildRenderTree e acc.2
      match r.1 with
      | some node => (acc.1 ++ [node], r.2)
      | none => (acc.1, r.2)

def workerBuildKidsList : List VChild → List SimpleRenderNode × Nat →
    List SimpleRenderNode × Nat
  | [], acc => acc
  | k :: rest, acc => workerBuildKidsList rest (workerBuildKid k acc)

end

/-- Layout node with only a fixed numeric width. -/
def fixedWidthChild (w : ℚ) : LayoutNode :=
  .mk { width := some (.num w) } [] none

/-- Layout node with only a fixed numeric height. -/
def fixedHeightChild (hfix : ℚ) : LayoutNode :=
  .mk { height := some (.num hfix) } [] none

/-- Node declaring `width: -50` together with `minWidth: 0`. -/
def negWidthNode : LayoutNode :=
  .mk { width := some (.num (-50)), minWidth := some 0 } [] none

/-- Row of main size 100 holding two fixed-width-100 children under
`space-between`: the children overflow the container. -/
def overflowRow : LayoutNode :=
  .mk { width := some (.num 100), flexDirection := some .row,
        justifyContent := some .spaceBetween }
    [fixedWidthChild 100, fixedWidthChild 100] none

/-- Serialized view box at a given position and size with a press flag. -/
def plainBox (id : String) (left top width height : ℚ) (press : Bool)
    (children : List SerializableNode) : SerializableNode :=
  .mk id .view ⟨left, top, width, height⟩ {} none press children

/-- Press-bearing root with two fully overlapping children: the earlier (first
painted) sibling carries a press flag, the later (topmost) one does not. -/
def overlapTree : SerializableNode :=
  plainBox "root" 0 0 100 100 true
    [plainBox "early" 0 0 50 50 true [], plainBox "late" 0 0 50 50 false []]

/-- Props with no style, no press callback and no children. -/
def emptyProps : VProps := .mk .noStyle false .noKids

/-- Virtual element whose kind is a function component. -/
def fnElement : VirtualElement := .mk (.fn 0) emptyProps

/-- Component environment in which every function component renders
`<Text>hi</Text>` and leaves the engine state unchanged. -/
def textResultEnv : CompEnv := fun _ _ s =>
  (.mk (.str "Text") (.mk .noStyle false (.oneKid (.strChild "hi"))), s)

/-- Virtual element of the unrecognized kind `Image`. -/
def imageElement : VirtualElement := .mk (.str "Image") emptyProps

/-! ## Helper lemmas -/

theorem calculateLayout_layout (style : LayoutStyle)
    (children : List LayoutNode) (ly : Option LayoutResult) (cw ch : ℚ) :
    (calculateLayout (.mk style children ly) cw ch).layout =
      some ⟨0, 0, (resolveOwnSize style cw ch).1,
        (resolveOwnSize style cw ch).2⟩ := rfl

theorem applyMinMax_le_max (v : ℚ) (mn : Option ℚ) (M : ℚ) (hM : M ≠ 0) :
    applyMinMax v mn (some M) ≤ M := by
  simp [applyMinMax, qTruthy, hM]

theorem le_applyMinMax_nomax (v m : ℚ) (hm : m ≠ 0) :
    m ≤ applyMinMax v (some m) none := by
  simp [applyMinMax, qTruthy, hm]

theorem applyMinMax_between (v m M : ℚ) (hm : m ≠ 0) (hM : M ≠ 0)
    (hmM : m ≤ M) :
    m ≤ applyMinMax v (some m) (some M) ∧
      applyMinMax v (some m) (some M) ≤ M := by
  simp only [applyMinMax, qTruthy]
  rw [if_pos (by simpa using hM), if_pos (by simpa using hm)]
  exact ⟨le_min (by simp [le_max_right v m]) hmM, min_le_right _ _⟩

theorem applyMinMax_nonneg (v : ℚ) (mn mx : Option ℚ) (hv : 0 ≤ v)
    (hmx : ∀ M, mx = some M → 0 ≤ M) : 0 ≤ applyMinMax v mn mx := by
  have h1 : 0 ≤ (if qTruthy mn then max v (mn.getD 0) else v) := by
    split
    · exact le_trans hv (le_max_left _ _)
    · exact hv
  simp only [applyMinMax]
  split
  · rename_i htr
    cases mx with
    | none => simp [qTruthy] at htr
    | some M => exact le_min h1 (hmx M rfl)
  · exact h1

/-! C1: counterexample and amended clamping theorem. -/

/-- C1 counterexample support: the style `{ width: -50, minWidth: 0 }` laid
out in a 300×300 container yields a box of width −50: the declared
`minWidth: 0` is skipped (zero is falsy) and nothing forbids negative
resolved sizes. -/
theorem negative_width_box :
    layoutWidth (calculateLayout negWidthNode 300 300) = -50 ∧
    negWidthNode.style.minWidth = some 0 ∧ ((-50 : ℚ) < 0) := by
  refine ⟨?_, rfl, by norm_num⟩
  simp [negWidthNode, calculateLayout, layoutWidth, resolveOwnSize,
    widthBase, heightBase, applyMinMax, flexPositive, qTruthy, parseSize,
    LayoutNode.layout]

/-- C1 (amended): every laid-out node's box is `⟨0,0,w,h⟩` with `(w, h)` the
resolved own size; a nonzero declared max bounds the resolved size from
above; a nonzero declared min bounds it from below unless a smaller nonzero
max overrides it; and the resolved size is non-negative provided the
container size, any parsed declared dimension, and any declared max are
non-negative.  (Bounds declared as `0` are ignored by the code, and negative
declared dimensions produce negative boxes — see `negative_width_box`.) -/
theorem layout_resolvedSize_clamping (style : LayoutStyle)
    (children : List LayoutNode) (ly : Option LayoutResult) (cw ch : ℚ) :
    (calculateLayout (.mk style children ly) cw ch).layout =
        some ⟨0, 0, (resolveOwnSize style cw ch).1,
          (resolveOwnSize style cw ch).2⟩
    ∧ (∀ M, style.maxWidth = some M → M ≠ 0 →
        (resolveOwnSize style cw ch).1 ≤ M)
    ∧ (∀ m, style.minWidth = some m → m ≠ 0 → style.maxWidth = none →
        m ≤ (resolveOwnSize style cw ch).1)
    ∧ (∀ m M, style.minWidth = some m → style.maxWidth = some M → m ≠ 0 →
        M ≠ 0 → m ≤ M →
        m ≤ (resolveOwnSize style cw ch).1 ∧
          (resolveOwnSize style cw ch).1 ≤ M)
    ∧ (0 ≤ cw → (∀ q, parseSize style.width cw = some q → 0 ≤ q) →
        (∀ M, style.maxWidth = some M → 0 ≤ M) →
        0 ≤ (resolveOwnSize style cw ch).1)
    ∧ (∀ M, style.maxHeight = some M → M ≠ 0 →
        (resolveOwnSize style cw ch).2 ≤ M)
    ∧ (∀ m, style.minHeight = some m → m ≠ 0 → style.maxHeight = none →
        m ≤ (resolveOwnSize style cw ch).2)
    ∧ (∀ m M, style.minHeight = some m → style.maxHeight = some M → m ≠ 0 →
        M ≠ 0 → m ≤ M →
        m ≤ (resolveOwnSize style cw ch).2 ∧
          (resolveOwnSize style cw ch).2 ≤ M)
    ∧ (0 ≤ ch → (∀ q, parseSize style.height ch = some q → 0 ≤ q) →
        (∀ M, style.maxHeight = some M → 0 ≤ M) →
        0 ≤ (resolveOwnSize style cw ch).2) := by
  have hw : (resolveOwnSize style cw ch).1 =
      applyMinMax (widthBase style cw) style.minWidth style.maxWidth := rfl
  have hh : (resolveOwnSize style cw ch).2 =
      applyMinMax (heightBase style ch) style.minHeight style.maxHeight := rfl
  refine ⟨rfl, ?_, ?_, ?_, ?_, ?_, ?_, ?_, ?_⟩
  · intro M hmax hM
    rw [hw, hmax]
    exact applyMinMax_le_max _ _ _ hM
  · intro m hmin hm hnone
    rw [hw, hmin, hnone]
    exact le_applyMinMax_nomax _ _ hm
  · intro m M hmin hmax hm hM hmM
    rw [hw, hmin, hmax]
    exact applyMinMax_between _ _ _ hm hM hmM
  · intro hcw hq hmx
    rw [hw]
    refine applyMinMax_nonneg _ _ _ ?_ (fun M hM => hmx M hM)
    unfold widthBase
    split
    · exact hcw
    · cases hps : parseSize style.width cw with
      | none => simpa [hps] using hcw
      | some q => simpa [hps] using hq q hps
  · intro M hmax hM
    rw [hh, hmax]
    exact applyMinMax_le_max _ _ _ hM
  · intro m hmin hm hnone
    rw [hh, hmin, hnone]
    exact le_applyMinMax_nomax _ _ hm
  · intro m M hmin hmax hm hM hmM
    rw [hh, hmin, hmax]
    exact applyMinMax_between _ _ _ hm hM hmM
  · intro hch hq hmx
    rw [hh]
    refine applyMinMax_nonneg _ _ _ ?_ (fun M hM => hmx M hM)
    unfold heightBase
    split
    · exact hch
    · cases hps : parseSize style.height ch with
      | none => simpa [hps] using hch
      | some q => simpa [hps] using hq q hps

/-- Witness for `layout_resolvedSize_clamping` at a concrete style
`{ width: 500, minWidth: 50, maxWidth: 200 }` in a 300×300 container: the
resolved width is clamped into `[50, 200]` and the box is non-negative. -/
theorem layout_resolvedSize_clamping_witness :
    (50 : ℚ) ≤ (resolveOwnSize
        { width := some (.num 500), minWidth := some 50,
          maxWidth := some 200 } 300 300).1 ∧
      (resolveOwnSize
        { width := some (.num 500), minWidth := some 50,
          maxWidth := some 200 } 300 300).1 ≤ 200 ∧
      0 ≤ (resolveOwnSize
        { width := some (.num 500), minWidth := some 50,
          maxWidth := some 200 } 300 300).1 := by
  obtain ⟨-, -, -, hbetween, hnonneg, -⟩ :=
    layout_resolvedSize_clamping
      { width := some (.num 500), minWidth := some 50, maxWidth := some 200 }
      [] none 300 300
  obtain ⟨h1, h2⟩ := hbetween 50 200 rfl rfl (by norm_num) (by norm_num)
    (by norm_num)
  refine ⟨h1, h2, hnonneg (by norm_num) ?_ ?_⟩
  · intro q hq
    simp [parseSize] at hq
    subst hq
    norm_num
  · intro M hM
    simp at hM
    subst hM
    norm_num

/-! C3: the clamp protects only the flex unit. -/

/-- C3 counterexample support: a size-100 row with two fixed-100 children and
`space-between` computes its inter-child spacing from the unclamped negative
leftover: the spacing is −100 (not 0), so the second child lands at left 0
instead of left 100. -/
theorem spacing_from_negative_leftover :
    (calculateLayout overflowRow 393 852).children.map layoutLeft = [0, 0] ∧
    (justifyParams .spaceBetween 2 100 200 (flexUnit 100 200 0) 0).1 = -100 ∧
    (justifyParams .spaceBetween 2 100 200 (flexUnit 100 200 0) 0).1 < 0 := by
  refine ⟨?_, ?_, ?_⟩
  · simp [overflowRow, fixedWidthChild, calculateLayout, layoutChildrenGo,
      placeChild, resolveOwnSize, widthBase, heightBase, applyMinMax,
      flexPositive, qTruthy, parseSize, childMainFixed, totalFixedSize,
      totalFlexWeight, flexUnit, flexSpace, justifyParams, layoutLeft,
      dirIsRow, alignIsStretch, LayoutNode.style, LayoutNode.children,
      LayoutNode.layout]
    norm_num
  · simp [justifyParams, flexUnit, flexSpace]
    norm_num
  · simp [justifyParams, flexUnit, flexSpace]
    norm_num

/-- C3 (amended): the negative leftover is clamped to zero before computing
the per-unit flex size — `flexSpace` and `flexUnit` are never negative — but
the justification spacing and offsets are computed from the unclamped
leftover `mainSize - totalFixedSize - flexUnit * totalFlex` and can be
negative (see `spacing_from_negative_leftover`). -/
theorem flexUnit_clamped_nonneg (mainSize totalFixed totalFlex : ℚ) :
    0 ≤ flexSpace mainSize totalFixed ∧
      0 ≤ flexUnit mainSize totalFixed totalFlex := by
  constructor
  · exact le_max_left _ _
  · unfold flexUnit
    split
    · exact div_nonneg (le_max_left _ _) (by linarith)
    · exact le_refl 0

/-! C2: space-between positions. -/

theorem totalFixed_aux (isRow : Bool) (cw ch : ℚ) :
    ∀ (l : List LayoutNode) (sizes : List ℚ) (init : ℚ),
      l.map (childMainFixed isRow cw ch) = sizes.map some →
      l.foldl (fun acc c =>
        match childMainFixed isRow cw ch c with
        | some s => acc + s
        | none => acc) init = init + sizes.sum
  | [], sizes, init, h => by
      cases sizes with
      | nil => simp
      | cons s rest => simp at h
  | c :: rest, sizes, init, h => by
      cases sizes with
      | nil => simp at h
      | cons s srest =>
          simp only [List.map_cons, List.cons.injEq] at h
          simp only [List.foldl_cons, h.1, List.sum_cons]
          rw [totalFixed_aux isRow cw ch rest srest (init + s) h.2]
          ring

theorem totalFixedSize_of_fixed (isRow : Bool) (cw ch : ℚ)
    (l : List LayoutNode) (sizes : List ℚ)
    (h : l.map (childMainFixed isRow cw ch) = sizes.map some) :
    totalFixedSize l isRow cw ch = sizes.sum := by
  have := totalFixed_aux isRow cw ch l sizes 0 h
  simpa [totalFixedSize] using this

theorem totalFlex_aux (isRow : Bool) (cw ch : ℚ) :
    ∀ (l : List LayoutNode) (sizes : List ℚ) (init : ℚ),
      l.map (childMainFixed isRow cw ch) = sizes.map some →
      l.foldl (fun acc c =>
        match childMainFixed isRow cw ch c with
        | some _ => acc
        | none => if qTruthy c.style.flex then acc + c.style.flex.getD 0
            else acc) init = init
  | [], _, init, _ => by simp
  | c :: rest, sizes, init, h => by
      cases sizes with
      | nil => simp at h
      | cons s srest =>
          simp only [List.map_cons, List.cons.injEq] at h
          simp only [List.foldl_cons, h.1]
          exact totalFlex_aux isRow cw ch rest srest init h.2

theorem totalFlexWeight_of_fixed (isRow : Bool) (cw ch : ℚ)
    (l : List LayoutNode) (sizes : List ℚ)
    (h : l.map (childMainFixed isRow cw ch) = sizes.map some) :
    totalFlexWeight l isRow cw ch = 0 := by
  have := totalFlex_aux isRow cw ch l sizes 0 h
  simpa [totalFlexWeight] using this

theorem layoutMainPos_placeChild (isRow : Bool) (n : LayoutNode)
    (a b mainPos crossPos : ℚ) :
    layoutMainPos isRow (placeChild (calculateLayout n a b) mainPos crossPos
      isRow) = mainPos := by
  obtain ⟨style, children, ly⟩ := n
  cases isRow <;> rfl

theorem layoutChildrenGo_mainPos (cw ch ox oy crossSize : ℚ)
    (align : AlignItems) (fUnit spacing : ℚ) (isRow : Bool) :
    ∀ (l : List LayoutNode) (sizes : List ℚ) (pos : ℚ),
      l.map (childMainFixed isRow cw ch) = sizes.map some →
      ∀ i, i < l.length →
        ((layoutChildrenGo l cw ch ox oy isRow crossSize align fUnit spacing
            pos).get? i).map (layoutMainPos isRow) =
          some (pos + (sizes.take i).sum + i * spacing)
  | [], _, _, _, i, hi => by simp at hi
  | c :: rest, sizes, pos, h, i, hi => by
      cases sizes with
      | nil => simp at h
      | cons s srest =>
          simp only [List.map_cons, List.cons.injEq] at h
          obtain ⟨cstyle, ckids, cly⟩ := c
          cases i with
          | zero =>
              simp [layoutChildrenGo, h.1, layoutMainPos_placeChild]
          | succ j =>
              have hj : j < rest.length := by
                simpa using Nat.lt_of_succ_lt_succ hi
              have ih := layoutChildrenGo_mainPos cw ch ox oy crossSize align
                fUnit spacing isRow rest srest (pos + s + spacing) h.2 j hj
              simp only [layoutChildrenGo, h.1, List.get?_cons_succ]
              rw [ih]
              congr 1
              push_cast
              simp only [List.take_succ_cons, List.sum_cons]
              ring

theorem gaps_of_formula (laid : List LayoutNode) (sizes : List ℚ) (n : Nat)
    (start gap : ℚ) (posOf : LayoutNode → ℚ) (hlen : n = sizes.length)
    (formula : ∀ i, i < n → ((laid.get? i).map posOf) =
      some (start + (sizes.take i).sum + i * gap)) :
    ∀ i si li li1, sizes.get? i = some si → i + 1 < n →
      ((laid.get? i).map posOf) = some li →
      ((laid.get? (i + 1)).map posOf) = some li1 →
      li1 - (li + si) = gap := by
  intro i si li li1 hsi hii hli hli1
  have hf := formula i (by omega)
  have hf1 := formula (i + 1) hii
  rw [hli] at hf
  rw [hli1] at hf1
  have hlival := Option.some.inj hf
  have hli1val := Option.some.inj hf1
  have hisz : i < sizes.length := by omega
  have hgeti : sizes[i] = si := by
    have := List.getElem?_eq_getElem hisz
    rw [← List.get?_eq_getElem?] at this
    rw [hsi] at this
    exact (Option.some.inj this).symm
  have htake : (sizes.take (i + 1)).sum = (sizes.take i).sum + si := by
    rw [List.sum_take_succ sizes i hisz, hgeti]
  rw [hlival, hli1val, htake]
  push_cast
  ring

/-- C2: in a space-between container of either flex direction whose children
all have fixed main-axis sizes, the first child sits at the content origin of
the main axis, the i-th child sits at the sum of the earlier sizes plus `i`
gaps, and each adjacent pair is separated by exactly `(M - S) / (N - 1)` where
`M` is the container's main-axis size. -/
theorem spaceBetween_gaps (children : List LayoutNode) (sizes : List ℚ)
    (cw ch ox oy : ℚ) (dir : FlexDirection) (align : AlignItems)
    (hsz : children.map (childMainFixed (dirIsRow dir) cw ch) =
      sizes.map some)
    (hn : 2 ≤ children.length) :
    (((layoutChildren children cw ch ox oy dir .spaceBetween align).get?
        0).map (layoutMainPos (dirIsRow dir)) =
      some (if dirIsRow dir then ox else oy)) ∧
    (∀ i, i < children.length →
      ((layoutChildren children cw ch ox oy dir .spaceBetween align).get?
          i).map (layoutMainPos (dirIsRow dir)) =
        some ((if dirIsRow dir then ox else oy) + (sizes.take i).sum +
          i * (((if dirIsRow dir then cw else ch) - sizes.sum) /
            ((children.length : ℚ) - 1)))) ∧
    (∀ i si li li1, sizes.get? i = some si → i + 1 < children.length →
      ((layoutChildren children cw ch ox oy dir .spaceBetween align).get?
          i).map (layoutMainPos (dirIsRow dir)) = some li →
      ((layoutChildren children cw ch ox oy dir .spaceBetween align).get?
          (i + 1)).map (layoutMainPos (dirIsRow dir)) = some li1 →
      li1 - (li + si) =
        ((if dirIsRow dir then cw else ch) - sizes.sum) /
          ((children.length : ℚ) - 1)) := by
  have h1 : 1 < children.length := by omega
  have hlen : children.length = sizes.length := by
    have := congrArg List.length hsz
    simpa using this
  cases dir with
  | row =>
      have htfs := totalFixedSize_of_fixed true cw ch children sizes hsz
      have htfl := totalFlexWeight_of_fixed true cw ch children sizes hsz
      have hlc : layoutChildren children cw ch ox oy .row .spaceBetween
          align = layoutChildrenGo children cw ch ox oy true ch align 0
            ((cw - sizes.sum) / ((children.length : ℚ) - 1)) ox := by
        simp [layoutChildren, dirIsRow, htfs, htfl, flexUnit, justifyParams,
          h1, flexSpace]
      have formula : ∀ i, i < children.length →
          ((layoutChildren children cw ch ox oy .row .spaceBetween
              align).get? i).map (layoutMainPos true) =
            some (ox + (sizes.take i).sum +
              i * ((cw - sizes.sum) / ((children.length : ℚ) - 1))) := by
        intro i hi
        rw [hlc]
        exact layoutChildrenGo_mainPos cw ch ox oy ch align 0
          ((cw - sizes.sum) / ((children.length : ℚ) - 1)) true children
          sizes ox hsz i hi
      refine ⟨?_, formula, ?_⟩
      · have h0 := formula 0 (by omega)
        simpa using h0
      · exact gaps_of_formula _ sizes children.length ox _
          (layoutMainPos true) hlen formula
  | column =>
      have htfs := totalFixedSize_of_fixed false cw ch children sizes hsz
      have htfl := totalFlexWeight_of_fixed false cw ch children sizes hsz
      have hlc : layoutChildren children cw ch ox oy .column .spaceBetween
          align = layoutChildrenGo children cw ch ox oy false cw align 0
            ((ch - sizes.sum) / ((children.length : ℚ) - 1)) oy := by
        simp [layoutChildren, dirIsRow, htfs, htfl, flexUnit, justifyParams,
          h1, flexSpace]
      have formula : ∀ i, i < children.length →
          ((layoutChildren children cw ch ox oy .column .spaceBetween
              align).get? i).map (layoutMainPos false) =
            some (oy + (sizes.take i).sum +
              i * ((ch - sizes.sum) / ((children.length : ℚ) - 1))) := by
        intro i hi
        rw [hlc]
        exact layoutChildrenGo_mainPos cw ch ox oy cw align 0
          ((ch - sizes.sum) / ((children.length : ℚ) - 1)) false children
          sizes oy hsz i hi
      refine ⟨?_, formula, ?_⟩
      · have h0 := formula 0 (by omega)
        simpa using h0
      · exact gaps_of_formula _ sizes children.length oy _
          (layoutMainPos false) hlen formula

/-- Witness for `spaceBetween_gaps` in both directions: a row of main size
300 with two fixed-width-100 children under `space-between` places them at
left 0 and left 200, and a column of main size 400 with two fixed-height-100
children places them at top 0 and top 300. -/
theorem spaceBetween_gaps_witness :
    (((layoutChildren [fixedWidthChild 100, fixedWidthChild 100] 300 300 0 0
        .row .spaceBetween .alignFlexStart).get? 0).map (layoutMainPos true) =
      some 0) ∧
    (((layoutChildren [fixedWidthChild 100, fixedWidthChild 100] 300 300 0 0
        .row .spaceBetween .alignFlexStart).get? 1).map (layoutMainPos true) =
      some 200) ∧
    (((layoutChildren [fixedHeightChild 100, fixedHeightChild 100] 300 400 0 0
        .column .spaceBetween .alignFlexStart).get? 0).map
      (layoutMainPos false) = some 0) ∧
    (((layoutChildren [fixedHeightChild 100, fixedHeightChild 100] 300 400 0 0
        .column .spaceBetween .alignFlexStart).get? 1).map
      (layoutMainPos false) = some 300) := by
  obtain ⟨hfirst, hformula, -⟩ := spaceBetween_gaps
    [fixedWidthChild 100, fixedWidthChild 100] [100, 100] 300 300 0 0 .row
    .alignFlexStart
    (by simp [fixedWidthChild, childMainFixed, parseSize, dirIsRow,
      LayoutNode.style])
    (by simp)
  obtain ⟨hcfirst, hcformula, -⟩ := spaceBetween_gaps
    [fixedHeightChild 100, fixedHeightChild 100] [100, 100] 300 400 0 0
    .column .alignFlexStart
    (by simp [fixedHeightChild, childMainFixed, parseSize, dirIsRow,
      LayoutNode.style])
    (by simp)
  have h := hformula 1 (by simp)
  have hc := hcformula 1 (by simp)
  norm_num [dirIsRow] at h hc hfirst hcfirst ⊢
  exact ⟨hfirst, h, hcfirst, hc⟩

/-! C10: layout writes only the boxes. -/

theorem eraseLayout_placeChild (n : LayoutNode) (m cr : ℚ) (isRow : Bool) :
    eraseLayout (placeChild n m cr isRow) = eraseLayout n := by
  obtain ⟨style, children, ly⟩ := n
  cases ly <;> rfl

mutual

theorem eraseLayout_calculateLayout : ∀ (n : LayoutNode) (cw ch : ℚ),
    eraseLayout (calculateLayout n cw ch) = eraseLayout n
  | .mk style children ly, cw, ch => by
      by_cases hemp : children.isEmpty = true
      · simp only [calculateLayout]
        rw [if_pos hemp]
        rfl
      · simp only [calculateLayout]
        rw [if_neg hemp]
        simp only [eraseLayout]
        congr 1
        exact eraseLayoutList_go children _ _ _ _ _ _ _ _ _ _

theorem eraseLayoutList_go : ∀ (l : List LayoutNode) (cw ch ox oy : ℚ)
    (isRow : Bool) (crossSize : ℚ) (align : AlignItems)
    (fUnit spacing pos : ℚ),
    eraseLayoutList (layoutChildrenGo l cw ch ox oy isRow crossSize align
      fUnit spacing pos) = eraseLayoutList l
  | [], _, _, _, _, _, _, _, _, _, _ => rfl
  | c :: rest, cw, ch, ox, oy, isRow, crossSize, align, fUnit, spacing,
      pos => by
      simp only [layoutChildrenGo, eraseLayoutList]
      congr 1
      · rw [eraseLayout_placeChild]
        exact eraseLayout_calculateLayout c _ _
      · exact eraseLayoutList_go rest _ _ _ _ _ _ _ _ _ _

end

mutual

theorem stripLayout_update : ∀ (srn : SimpleRenderNode) (ln : LayoutNode),
    stripLayout (updateLayoutsFromNode srn ln) = stripLayout srn
  | .mk i t st tx cs ly op, ln => by
      simp only [updateLayoutsFromNode, stripLayout]
      congr 1
      exact stripLayoutList_update cs ln.children

theorem stripLayoutList_update : ∀ (cs : List SimpleRenderNode)
    (ls : List LayoutNode),
    stripLayoutList (updateLayoutsList cs ls) = stripLayoutList cs
  | [], _ => rfl
  | _ :: _, [] => rfl
  | c :: cs, l :: ls => by
      simp only [updateLayoutsList, stripLayoutList]
      congr 1
      · exact stripLayout_update c l
      · exact stripLayoutList_update cs ls

end

/-- C10: computing layout writes only the per-node boxes.  Erasing the layout
slots of a tree returned by `calculateLayout` gives back the erasure of the
input — styles and child structure are untouched — and likewise
`SimpleRenderNode.calculateLayout` leaves ids, kinds, styles, text, press
handlers and child order of the render tree unchanged. -/
theorem layout_writes_only_boxes :
    (∀ (n : LayoutNode) (cw ch : ℚ),
      eraseLayout (calculateLayout n cw ch) = eraseLayout n) ∧
    (∀ (srn : SimpleRenderNode) (width height : Option ℚ),
      stripLayout (srnCalculateLayout srn width height) = stripLayout srn) := by
  refine ⟨eraseLayout_calculateLayout, ?_⟩
  intro srn w h
  unfold srnCalculateLayout
  exact stripLayout_update srn _

/-! C4: state cell round trip. -/

/-- C4: starting a pass at ordinal 0 with nothing stored there, acquiring a
cell with initial `v0` returns `v0`; applying its setter with `v1`, resetting
the per-pass ordinal, and re-acquiring at the same ordinal with an arbitrary
initial `v2` returns the stored `v1` — the later initial argument is
ignored. -/
theorem stateCell_roundTrip {V : Type} (s : EngineState V)
    (h0 : s.stateIndex = 0) (hfresh : s.stateValues 0 = none) (v0 v1 v2 : V) :
    (useState v0 s).1 = v0 ∧
    (useState v2 (resetState
        (applySetter (useState v0 s).2.1 (.value v1)
          (useState v0 s).2.2))).1 = v1 := by
  constructor
  · simp [useState, h0, hfresh]
  · simp [useState, resetState, applySetter, h0, hfresh]

/-- Witness for `stateCell_roundTrip` with integer cells: initial 1, set to
2, re-acquired with initial 7 — the first read gives 1 and the re-read gives
2. -/
theorem stateCell_roundTrip_witness :
    ((useState 1 (⟨0, fun _ => none⟩ : EngineState Int)).1 = 1) ∧
    ((useState 7 (resetState
        (applySetter (useState 1 (⟨0, fun _ => none⟩ : EngineState Int)).2.1
          (.value 2)
          (useState 1 (⟨0, fun _ => none⟩ : EngineState Int)).2.2))).1
      = 2) :=
  stateCell_roundTrip ⟨0, fun _ => none⟩ rfl rfl 1 2 7

/-! C8: dispatch against a missing handler. -/

/-- C8: dispatching an event for a node id with no entry in the handler table
posts exactly the dispatch info log and a "No handler found" warning log: no
`EXECUTION_ERROR` message is emitted, no handler runs, and `dispatchEvent`
returns normally. -/
theorem dispatch_unknown_handler
    (eventHandlers : String → Option (Except String Unit))
    (currentTree : Bool) (nodeId eventType : String)
    (h : eventHandlers nodeId = none) :
    dispatchEvent eventHandlers currentTree nodeId eventType =
      [.log .info ("[Worker] Dispatching " ++ eventType ++ " to node " ++
          nodeId),
       .log .warn ("[Worker] No handler found for node " ++ nodeId)] ∧
    ∀ m ∈ dispatchEvent eventHandlers currentTree nodeId eventType,
      isExecutionErrorMsg m = false := by
  have heq : dispatchEvent eventHandlers currentTree nodeId eventType =
      [.log .info ("[Worker] Dispatching " ++ eventType ++ " to node " ++
          nodeId),
       .log .warn ("[Worker] No handler found for node " ++ nodeId)] := by
    simp [dispatchEvent, h]
  refine ⟨heq, ?_⟩
  intro m hm
  rw [heq] at hm
  simp only [List.mem_cons, List.not_mem_nil, or_false] at hm
  rcases hm with hm | hm <;> rw [hm] <;> rfl

/-- Witness for `dispatch_unknown_handler`: the empty handler table and node
id `node_42`. -/
theorem dispatch_unknown_handler_witness :
    dispatchEvent (fun _ => none) true "node_42" "press" =
      [.log .info "[Worker] Dispatching press to node node_42",
       .log .warn "[Worker] No handler found for node node_42"] ∧
    ∀ m ∈ dispatchEvent (fun _ => none) true "node_42" "press",
      isExecutionErrorMsg m = false :=
  dispatch_unknown_handler (fun _ => none) true "node_42" "press" rfl

/-! C5: function-component evaluation. -/

/-- C5 counterexample support: on a function-kind element the main-thread
builder evaluates the component (here producing a `Text` node), while the
worker builder never invokes it — it coerces the element to a `view` node. -/
theorem worker_builder_ignores_function :
    ((buildRenderTree textResultEnv 2 fnElement ⟨0, fun _ => none⟩).1.map
      RenderNode.type = some NodeKind.text) ∧
    ((workerBuildRenderTree fnElement 0).1.map SimpleRenderNode.type =
      some NodeKind.view) ∧
    NodeKind.text ≠ NodeKind.view := by
  refine ⟨rfl, rfl, by simp⟩

/-- C5 (amended): the main-thread builder evaluates a function-kind element
by resetting the per-pass ordinal, invoking the component with the element's
props, and recursively building from the returned element; the worker-variant
builder does not handle function kinds — it coerces every such element to a
`view` node without invoking the function. -/
theorem builder_function_elements :
    (∀ (env : CompEnv) (fuel fid : Nat) (props : VProps)
        (s : EngineState JsVal),
      buildRenderTree env (fuel + 1) (.mk (.fn fid) props) s =
        buildRenderTree env fuel (env fid props (resetState s)).1
          (env fid props (resetState s)).2) ∧
    (∀ (fid : Nat) (props : VProps) (c : Nat),
      ((workerBuildRenderTree (.mk (.fn fid) props) c).1.map
        SimpleRenderNode.type) = some NodeKind.view) := by
  constructor
  · intro env fuel fid props s
    rfl
  · intro fid props c
    obtain ⟨style, press, kids⟩ := props
    cases kids with
    | noKids =>
        simp [workerBuildRenderTree, mkSimpleRenderNode, generateNodeId,
          SimpleRenderNode.type]
    | oneKid k =>
        by_cases hk : kidTruthy k = true <;>
          simp [workerBuildRenderTree, hk, mkSimpleRenderNode, generateNodeId,
            SimpleRenderNode.type]
    | manyKids cs =>
        simp [workerBuildRenderTree, mkSimpleRenderNode, generateNodeId,
          SimpleRenderNode.type]

/-! C6: kind recognition. -/

/-- C6 counterexample support: the worker builder does not drop an element of
the unrecognized kind `Image` — it yields a `view` node, not `null`. -/
theorem worker_builder_drops_nothing :
    ((workerBuildRenderTree imageElement 0).1.map SimpleRenderNode.type =
      some NodeKind.view) ∧
    (workerBuildRenderTree imageElement 0).1 ≠ none := by
  refine ⟨rfl, by simp [imageElement, emptyProps, workerBuildRenderTree,
    mkSimpleRenderNode, generateNodeId]⟩

/-- C6 (amended): in the main-thread builder, `View`/`TouchableOpacity`
elements map to `view` nodes and `Text` elements to `text` nodes, while any
other string kind yields `null` — dropped without any diagnostic; the worker
builder instead coerces unrecognized kinds to `view` nodes. -/
theorem builder_kind_mapping :
    (∀ (env : CompEnv) (fuel : Nat) (name : String) (props : VProps)
        (s : EngineState JsVal),
      name ≠ "View" → name ≠ "TouchableOpacity" → name ≠ "Text" →
      buildRenderTree env (fuel + 1) (.mk (.str name) props) s = (none, s)) ∧
    (∀ (env : CompEnv) (fuel : Nat) (props : VProps) (s : EngineState JsVal),
      ((buildRenderTree env (fuel + 1) (.mk (.str "View") props) s).1.map
        RenderNode.type) = some NodeKind.view) ∧
    (∀ (env : CompEnv) (fuel : Nat) (props : VProps) (s : EngineState JsVal),
      ((buildRenderTree env (fuel + 1)
        (.mk (.str "TouchableOpacity") props) s).1.map RenderNode.type) =
        some NodeKind.view) ∧
    (∀ (env : CompEnv) (fuel : Nat) (props : VProps) (s : EngineState JsVal),
      buildRenderTree env (fuel + 1) (.mk (.str "Text") props) s =
        (some (.mk .text (flattenStyle props.style)
          (some (textFromKids props.children)) [] false), s)) ∧
    (∀ (name : String) (props : VProps) (c : Nat),
      name ≠ "View" → name ≠ "TouchableOpacity" → name ≠ "Text" →
      ((workerBuildRenderTree (.mk (.str name) props) c).1.map
        SimpleRenderNode.type) = some NodeKind.view) := by
  refine ⟨?_, ?_, ?_, ?_, ?_⟩
  · intro env fuel name props s hV hT hX
    simp [buildRenderTree, hV, hT, hX]
  · intro env fuel props s
    simp [buildRenderTree, RenderNode.type]
  · intro env fuel props s
    simp [buildRenderTree, RenderNode.type]
  · intro env fuel props s
    simp [buildRenderTree]
  · intro name props c hV hT hX
    obtain ⟨style, press, kids⟩ := props
    have htype : (match VElemType.str name with
        | .str "View" => NodeKind.view
        | .str "TouchableOpacity" => NodeKind.view
        | .str "Text" => NodeKind.text
        | _ => NodeKind.view) = NodeKind.view := by
      split
      · rfl
      · rfl
      · rename_i heq
        exact absurd (by injection heq) hX
      · rfl
    cases kids with
    | noKids =>
        simp [workerBuildRenderTree, htype, mkSimpleRenderNode,
          generateNodeId, SimpleRenderNode.type]
    | oneKid k =>
        by_cases hk : kidTruthy k = true <;>
          simp [workerBuildRenderTree, htype, hk, mkSimpleRenderNode,
            generateNodeId, SimpleRenderNode.type]
    | manyKids cs =>
        simp [workerBuildRenderTree, htype, mkSimpleRenderNode,
          generateNodeId, SimpleRenderNode.type]

/-- Witness for `builder_kind_mapping` at the unrecognized kind `Image`: the
main-thread builder yields `null` and leaves the state untouched; the worker
builder yields a `view` node. -/
theorem builder_kind_mapping_witness :
    (buildRenderTree textResultEnv 1 (.mk (.str "Image") emptyProps)
        ⟨0, fun _ => none⟩ = (none, (⟨0, fun _ => none⟩ : EngineState JsVal)))
    ∧ ((workerBuildRenderTree (.mk (.str "Image") emptyProps) 0).1.map
        SimpleRenderNode.type = some NodeKind.view) := by
  obtain ⟨hdrop, -, -, -, hworker⟩ := builder_kind_mapping
  exact ⟨hdrop textResultEnv 0 "Image" emptyProps ⟨0, fun _ => none⟩
      (by decide) (by decide) (by decide),
    hworker "Image" emptyProps 0 (by decide) (by decide) (by decide)⟩

/-! C7: hit-testing order. -/

mutual

theorem hitTest_eq_find : ∀ (n : SerializableNode) (p : Point) (ox oy : ℚ),
    hitTest n p ox oy =
      ((hitOrder n p ox oy).find? SerializableNode.hasOnPress).map
        SerializableNode.id
  | .mk id ty layout st tx press children, p, ox, oy => by
      simp only [hitTest, hitOrder]
      by_cases hin : p.x ≥ ox + layout.left ∧
          p.x ≤ ox + layout.left + layout.width ∧ p.y ≥ oy + layout.top ∧
          p.y ≤ oy + layout.top + layout.height
      · rw [if_pos hin, if_pos hin, List.find?_append,
          hitTestKids_eq_find children p (ox + layout.left) (oy + layout.top)]
        cases hfind : (hitOrderKids children p (ox + layout.left)
            (oy + layout.top)).find? SerializableNode.hasOnPress with
        | some hitNode => simp [hfind]
        | none =>
            cases press <;>
              simp [hfind, List.find?, SerializableNode.hasOnPress,
                SerializableNode.id]
      · rw [if_neg hin, if_neg hin]
        rfl

theorem hitTestKids_eq_find : ∀ (l : List SerializableNode) (p : Point)
    (x y : ℚ),
    hitTestKids l p x y =
      ((hitOrderKids l p x y).find? SerializableNode.hasOnPress).map
        SerializableNode.id
  | [], _, _, _ => rfl
  | c :: rest, p, x, y => by
      simp only [hitTestKids, hitOrderKids]
      rw [List.find?_append, hitTestKids_eq_find rest p x y,
        hitTest_eq_find c p x y]
      cases hfind : (hitOrderKids rest p x y).find?
          SerializableNode.hasOnPress with
      | some hitNode => simp [hfind]
      | none => simp [hfind]

end

/-- C7 (amended): hit-testing returns the identifier of the first
press-flagged node in the pruned depth-first traversal that visits, inside
each point-containing node, the children in reverse paint order (topmost
subtree first) and the node itself after all its children; a node whose
subtree offers no press-flagged containing node resolves to `none`.  In
particular a declining topmost sibling falls through to the earlier
overlapping sibling before any ancestor is considered (see
`overlapping_sibling_hit`). -/
theorem hitTest_characterization :
    (∀ (n : SerializableNode) (p : Point) (ox oy : ℚ),
      hitTest n p ox oy =
        ((hitOrder n p ox oy).find? SerializableNode.hasOnPress).map
          SerializableNode.id) ∧
    (∀ (n : SerializableNode) (p : Point) (ox oy : ℚ),
      n.hasOnPress = false →
      hitTestKids n.children p (ox + n.layout.left) (oy + n.layout.top) =
        none →
      hitTest n p ox oy = none) := by
  refine ⟨hitTest_eq_find, ?_⟩
  intro n p ox oy hpress hkids
  obtain ⟨id, ty, layout, st, tx, press, children⟩ := n
  simp only [SerializableNode.hasOnPress] at hpress
  simp only [SerializableNode.children, SerializableNode.layout] at hkids
  simp only [hitTest, hkids, hpress]
  split
  · rfl
  · rfl

/-- C7 counterexample support: with two fully overlapping siblings where the
later-drawn (topmost) one carries no press flag and has no children, the hit
resolves to the earlier sibling — not to the topmost sibling and not to the
press-bearing root. -/
theorem overlapping_sibling_hit :
    hitTest overlapTree ⟨5, 5⟩ 0 0 = some "early" ∧
    ("early" : String) ≠ "late" ∧ ("early" : String) ≠ "root" := by
  refine ⟨?_, by decide, by decide⟩
  norm_num [overlapTree, plainBox, hitTest, hitTestKids]

/-! C9: node identifiers. -/

theorem digitVal_digitChar (d : Nat) (h : d < 10) :
    digitVal (Nat.digitChar d) = d := by
  interval_cases d <;> rfl

theorem toDigitsCore_eq_decimals : ∀ (fuel n : Nat) (ds : List Char),
    n < fuel → Nat.toDigitsCore 10 fuel n ds = decimalsOf n ++ ds
  | 0, n, _, h => absurd h (by omega)
  | fuel + 1, n, ds, h => by
      by_cases hlt : n < 10
      · have hdiv : n / 10 = 0 := Nat.div_eq_of_lt hlt
        have hmod : n % 10 = n := Nat.mod_eq_of_lt hlt
        simp only [Nat.toDigitsCore, hdiv, hmod, if_pos rfl]
        rw [decimalsOf, if_pos hlt]
        rfl
      · have hne : ¬n / 10 = 0 := by
          intro hz
          exact hlt (by omega)
        have hdivlt : n / 10 < fuel := by
          have := Nat.div_lt_self (by omega : 0 < n) (by omega : 1 < 10)
          omega
        simp only [Nat.toDigitsCore]
        rw [if_neg hne,
          toDigitsCore_eq_decimals fuel (n / 10)
            (Nat.digitChar (n % 10) :: ds) hdivlt]
        conv_rhs => rw [decimalsOf, if_neg hlt]
        simp

theorem repr_eq_decimals (n : Nat) :
    Nat.repr n = (decimalsOf n).asString := by
  unfold Nat.repr Nat.toDigits
  rw [toDigitsCore_eq_decimals (n + 1) n [] (by omega)]
  simp

theorem undecimal_decimals (n : Nat) : undecimal (decimalsOf n) = n := by
  induction n using Nat.strong_induction_on with
  | _ n ih =>
      by_cases h : n < 10
      · rw [decimalsOf, if_pos h]
        simp only [undecimal, List.foldl]
        rw [digitVal_digitChar n h]
        omega
      · rw [decimalsOf, if_neg h]
        simp only [undecimal, List.foldl_append, List.foldl]
        have hrec := ih (n / 10)
          (Nat.div_lt_self (by omega) (by omega))
        simp only [undecimal] at hrec
        rw [hrec, digitVal_digitChar (n % 10) (Nat.mod_lt n (by omega))]
        omega

theorem nat_repr_injective : Function.Injective Nat.repr := by
  intro a b h
  rw [repr_eq_decimals, repr_eq_decimals] at h
  have hdata : decimalsOf a = decimalsOf b := congrArg String.data h
  have := congrArg undecimal hdata
  rwa [undecimal_decimals, undecimal_decimals] at this

theorem nodeId_string_injective (m n : Nat)
    (h : "node_" ++ Nat.repr m = "node_" ++ Nat.repr n) : m = n := by
  have hdata := congrArg String.data h
  simp only [String.data_append] at hdata
  have hrepr : (Nat.repr m).data = (Nat.repr n).data :=
    List.append_cancel_left hdata
  exact nat_repr_injective (String.ext hrepr)

theorem idsFrom_eq : ∀ (c k : Nat),
    idsFrom c k = (List.range k).map (fun i => "node_" ++ Nat.repr (c + 1 + i))
  | _, 0 => rfl
  | c, k + 1 => by
      rw [idsFrom, List.range_succ_eq_map]
      simp only [generateNodeId, List.map_cons, List.map_map]
      rw [idsFrom_eq (c + 1) k]
      simp only [List.cons.injEq]
      refine ⟨by norm_num, ?_⟩
      apply List.map_congr_left
      intro a _
      simp only [Function.comp_apply, Nat.succ_eq_add_one]
      have harg : c + 1 + 1 + a = c + 1 + (a + 1) := by omega
      rw [harg]

theorem idsFrom_nodup (c k : Nat) : (idsFrom c k).Nodup := by
  rw [idsFrom_eq]
  refine List.Nodup.map ?_ (List.nodup_range k)
  intro i j hij
  have := nodeId_string_injective (c + 1 + i) (c + 1 + j) hij
  omega

/-- C9 counterexample support: two successive execution passes, each building
two nodes, produce the identifier lists `[node_1, node_2]` twice — the second
pass reuses `node_1` and `node_2`, because `executeCode` resets the allocator
at the start of every pass. -/
theorem nodeIds_repeat_across_passes :
    (executePassIds 0 2).1 = ["node_1", "node_2"] ∧
    (executePassIds (executePassIds 0 2).2 2).1 = ["node_1", "node_2"] := by
  constructor <;> rfl

/-- C9 (amended): within a single execution pass the allocator hands out
`node_(c+1), node_(c+2), …` — identifiers embedding strictly increasing
counter values, so no two nodes of one pass share an identifier — but
`executeCode` resets the counter before each pass, so the identifier
sequence of a pass does not depend on earlier passes and identifiers repeat
across passes (see `nodeIds_repeat_across_passes`). -/
theorem nodeId_allocation :
    (∀ c k, idsFrom c k =
        (List.range k).map (fun i => "node_" ++ Nat.repr (c + 1 + i))) ∧
    (∀ c k, (idsFrom c k).Nodup) ∧
    (∀ counterBefore k, (executePassIds counterBefore k).1 = idsFrom 0 k) :=
  ⟨idsFrom_eq, idsFrom_nodup, fun _ _ => rfl⟩

/-- Witness for `hitTest_characterization`: a flagless childless box
containing the point resolves to `none`. -/
theorem hitTest_characterization_witness :
    hitTest (plainBox "solo" 0 0 10 10 false []) ⟨5, 5⟩ 0 0 = none := by
  obtain ⟨-, hnull⟩ := hitTest_characterization
  exact hnull (plainBox "solo" 0 0 10 10 false []) ⟨5, 5⟩ 0 0 rfl rfl
